import Mathlib

/-!
# Verification of the Thai-to-Chinese TTS orchestration layer

Shallow embedding of `translation_service.py` and `melo_tts_service.py` from the
repository `Thai-To-Chinese-TTS`, together with theorems settling the spec's claims.

Modelling conventions:
* External collaborators (the two translation providers, the MeloTTS engine) are
  oracle functions passed as parameters; a Python exception is an `Except .error`
  carrying the exception's message string.
* Stateful objects become explicit state records threaded through the operations.
* `functools.lru_cache` is modelled by an association list kept in most-recently-used
  order: a hit moves the entry to the front, a successful miss inserts at the front
  and drops entries beyond `maxsize`, and exceptions are never cached (this is the
  documented behaviour of the Python standard library decorator used at
  translation_service.py line 27).
-/

set_option maxRecDepth 8192

/-- Python `str.strip()`: the string with leading and trailing whitespace removed. -/
def pyStrip (s : String) : String :=
  String.mk (((s.data.dropWhile Char.isWhitespace).reverse.dropWhile Char.isWhitespace).reverse)

namespace TranslationService

/-- `TranslationService.SHORT_TEXT_THRESHOLD` (translation_service.py line 17). -/
def SHORT_TEXT_THRESHOLD : Nat := 500

/-- `TranslationService.CACHE_SIZE` (translation_service.py line 18):
`lru_cache` capacity. -/
def CACHE_SIZE : Nat := 100

/-- The two translation backends of the hybrid strategy. -/
inductive Backend where
  | googletrans
  | deepTranslator
  deriving DecidableEq, Repr

/-- `TranslationService._translate_google_sync` (lines 43-53): runs the googletrans
client (the oracle `google`) and re-raises any failure as
`RuntimeError("Googletrans error: ...")`. -/
def translate_google_sync (google : String → Except String String) (text : String) :
    Except String String :=
  match google text with
  | .ok r => .ok r
  | .error e => .error ("Googletrans error: " ++ e)

/-- `TranslationService._translate_impl` (lines 55-87): length-based choice of the
primary backend with a single fallback to the other backend.  Besides the Python
return value `(translated_text, translator_used)` the embedding also records, in
order, which backends were attempted (the backend-call trace). -/
def translate_impl (google deep : String → Except String String) (text : String) :
    Except String (String × String) × List Backend :=
  if text.length ≤ SHORT_TEXT_THRESHOLD then
    match translate_google_sync google text with
    | .ok r => (.ok (r, "googletrans"), [.googletrans])
    | .error e =>
      match deep text with
      | .ok r => (.ok (r, "deep-translator (fallback)"), [.googletrans, .deepTranslator])
      | .error ex =>
        (.error ("All translators failed. Google: " ++ e ++ ", Deep: " ++ ex),
         [.googletrans, .deepTranslator])
  else
    match deep text with
    | .ok r => (.ok (r, "deep-translator"), [.deepTranslator])
    | .error _ =>
      match translate_google_sync google text with
      | .ok r => (.ok (r, "googletrans (fallback)"), [.deepTranslator, .googletrans])
      | .error ex =>
        (.error ("All translators failed: " ++ ex), [.deepTranslator, .googletrans])

/-- C1: for every non-empty trimmed input, `_translate_impl` attempts googletrans
(backend A) before deep-translator (backend B) when the text has at most
`SHORT_TEXT_THRESHOLD` characters, and deep-translator before googletrans when it is
longer. -/
theorem translate_impl_routes_by_length
    (google deep : String → Except String String) (text : String)
    (htrim : pyStrip text = text) (hne : text ≠ "") :
    (text.length ≤ SHORT_TEXT_THRESHOLD →
      (translate_impl google deep text).2 = [Backend.googletrans] ∨
      (translate_impl google deep text).2 = [Backend.googletrans, Backend.deepTranslator]) ∧
    (SHORT_TEXT_THRESHOLD < text.length →
      (translate_impl google deep text).2 = [Backend.deepTranslator] ∨
      (translate_impl google deep text).2 = [Backend.deepTranslator, Backend.googletrans]) := by
  refine ⟨fun h => ?_, fun h => ?_⟩
  · cases hg : translate_google_sync google text with
    | ok r => left; simp [translate_impl, if_pos h, hg]
    | error e =>
      cases hd : deep text with
      | ok r => right; simp [translate_impl, if_pos h, hg, hd]
      | error ex => right; simp [translate_impl, if_pos h, hg, hd]
  · have h' : ¬ text.length ≤ SHORT_TEXT_THRESHOLD := by omega
    cases hd : deep text with
    | ok r => left; simp [translate_impl, if_neg h', hd]
    | error e =>
      cases hg : translate_google_sync google text with
      | ok r => right; simp [translate_impl, if_neg h', hd, hg]
      | error ex => right; simp [translate_impl, if_neg h', hd, hg]

/-- Witness for `translate_impl_routes_by_length` at the concrete text `"abc"`. -/
theorem translate_impl_routes_by_length_witness :
    (pyStrip "abc" = "abc" ∧ "abc" ≠ "") ∧
    (("abc".length ≤ SHORT_TEXT_THRESHOLD →
      (translate_impl (fun _ => .ok "x") (fun _ => .ok "y") "abc").2 = [Backend.googletrans] ∨
      (translate_impl (fun _ => .ok "x") (fun _ => .ok "y") "abc").2 =
        [Backend.googletrans, Backend.deepTranslator]) ∧
    (SHORT_TEXT_THRESHOLD < "abc".length →
      (translate_impl (fun _ => .ok "x") (fun _ => .ok "y") "abc").2 = [Backend.deepTranslator] ∨
      (translate_impl (fun _ => .ok "x") (fun _ => .ok "y") "abc").2 =
        [Backend.deepTranslator, Backend.googletrans])) :=
  ⟨⟨by decide, by decide⟩,
   translate_impl_routes_by_length (fun _ => .ok "x") (fun _ => .ok "y") "abc"
     (by decide) (by decide)⟩

/-- `msg` carries the failure cause `cause`: the cause occurs verbatim inside the
message. -/
abbrev carries (msg cause : String) : Prop := cause.data <:+: msg.data

/-- C2 (amended): when both backends fail, the short-text branch raises
`TranslationError` carrying both causes, but the long-text branch (primary
deep-translator) discards the primary's cause and carries only the googletrans
fallback cause. -/
theorem translate_impl_both_fail_error_messages
    (google deep : String → Except String String) (text eg ed : String)
    (hg : google text = .error eg) (hd : deep text = .error ed) :
    (text.length ≤ SHORT_TEXT_THRESHOLD →
      (translate_impl google deep text).1 =
        .error ("All translators failed. Google: " ++ ("Googletrans error: " ++ eg) ++
          ", Deep: " ++ ed) ∧
      carries ("All translators failed. Google: " ++ ("Googletrans error: " ++ eg) ++
          ", Deep: " ++ ed) eg ∧
      carries ("All translators failed. Google: " ++ ("Googletrans error: " ++ eg) ++
          ", Deep: " ++ ed) ed) ∧
    (SHORT_TEXT_THRESHOLD < text.length →
      (translate_impl google deep text).1 =
        .error ("All translators failed: " ++ ("Googletrans error: " ++ eg)) ∧
      carries ("All translators failed: " ++ ("Googletrans error: " ++ eg)) eg) := by
  constructor
  · intro h
    refine ⟨?_, ?_, ?_⟩
    · simp [translate_impl, if_pos h, translate_google_sync, hg, hd]
    · exact ⟨("All translators failed. Google: " ++ "Googletrans error: ").data,
        (", Deep: " ++ ed).data, by simp [String.data_append]⟩
    · exact ⟨("All translators failed. Google: " ++ ("Googletrans error: " ++ eg) ++
        ", Deep: ").data, [], by simp [String.data_append]⟩
  · intro h
    have h' : ¬ text.length ≤ SHORT_TEXT_THRESHOLD := by omega
    refine ⟨?_, ?_⟩
    · simp [translate_impl, if_neg h', translate_google_sync, hg, hd]
    · exact ⟨("All translators failed: " ++ "Googletrans error: ").data, [],
        by simp [String.data_append]⟩

/-- Witness for `translate_impl_both_fail_error_messages` with both backends
failing on `"abc"`. -/
theorem translate_impl_both_fail_error_messages_witness :
    ((fun _ => (.error "G0" : Except String String)) "abc" = .error "G0") ∧
    ("abc".length ≤ SHORT_TEXT_THRESHOLD →
      (translate_impl (fun _ => .error "G0") (fun _ => .error "D0") "abc").1 =
        .error ("All translators failed. Google: " ++ ("Googletrans error: " ++ "G0") ++
          ", Deep: " ++ "D0") ∧
      carries ("All translators failed. Google: " ++ ("Googletrans error: " ++ "G0") ++
          ", Deep: " ++ "D0") "G0" ∧
      carries ("All translators failed. Google: " ++ ("Googletrans error: " ++ "G0") ++
          ", Deep: " ++ "D0") "D0") :=
  ⟨rfl,
   (translate_impl_both_fail_error_messages (fun _ => .error "G0") (fun _ => .error "D0")
     "abc" "G0" "D0" rfl rfl).1⟩

/-- A 501-character text, which routes to the long-text branch. -/
def longText : String := String.mk (List.replicate 501 'x')

/-- C2 counterexample: on a 501-character text with both backends failing, the
raised `TranslationError` message is built from the googletrans fallback cause
alone; the deep-translator (primary) cause `"D-CAUSE"` appears nowhere in it. -/
theorem translate_impl_long_error_drops_primary_cause :
    SHORT_TEXT_THRESHOLD < longText.length ∧
    (translate_impl (fun _ => .error "G0") (fun _ => .error "D-CAUSE") longText).1 =
      .error "All translators failed: Googletrans error: G0" ∧
    ¬ carries "All translators failed: Googletrans error: G0" "D-CAUSE" := by
  refine ⟨by decide, by rfl, by decide⟩

/-- Outcome of the background future, as observed at the moment the caller's wait
on it returns: still unresolved, resolved with a value, or resolved with a raised
exception's message. -/
inductive FutureState where
  | pending
  | ok (v : String × String)
  | failed (e : String)
  deriving DecidableEq, Repr

/-- State of a `TranslationService` instance (`__init__`, lines 20-27):
`executor` is `none` while `self._executor is None` and `some stopped` once the
pool exists, `stopped` recording whether `shutdown()` was called on it; `future`
is `self._future`, holding the submitted computation's observed outcome; `cache`
is the `lru_cache` store in most-recently-used-first order; `backendCalls` counts
every backend attempt (the spec's backend call counter). -/
structure State where
  executor : Option Bool
  future : Option FutureState
  cache : List (String × String × String)
  backendCalls : Nat
  deriving DecidableEq, Repr

/-- A freshly constructed `TranslationService`. -/
def State.init : State := ⟨none, none, [], 0⟩

/-- `TranslationService.translate` (lines 89-99): strip the text; empty text
returns `("", "none")` with no backend call; otherwise consult the `lru_cache`d
`_translate_impl` — a hit returns the memoized pair and refreshes its recency, a
miss runs `_translate_impl` and caches the pair only on success. -/
def translate (google deep : String → Except String String) (s : State) (text : String) :
    Except String (String × String) × State :=
  let t := pyStrip text
  if t = "" then (.ok ("", "none"), s)
  else
    match s.cache.find? (fun q => q.1 == t) with
    | some entry =>
      (.ok entry.2,
       { s with cache := (t, entry.2) :: s.cache.filter (fun q => !(q.1 == t)) })
    | none =>
      let p := translate_impl google deep t
      match p.1 with
      | .ok v =>
        (.ok v, { s with cache := ((t, v) :: s.cache).take CACHE_SIZE,
                         backendCalls := s.backendCalls + p.2.length })
      | .error e => (.error e, { s with backendCalls := s.backendCalls + p.2.length })

/-- `TranslationService.translate_async` (lines 101-103): submit `self.translate`
to the lazily created single-worker executor and store the future.  `outcome` is
the submitted computation's eventual outcome.  Submitting to a pool whose
`shutdown()` has run raises `RuntimeError`, as `concurrent.futures` specifies. -/
def translate_async (s : State) (outcome : FutureState) : Except String State :=
  match s.executor with
  | some true => .error "cannot schedule new futures after shutdown"
  | _ => .ok { s with executor := some false, future := some outcome }

/-- `TranslationService.get_translation_result` (lines 105-115). -/
def get_translation_result (s : State) : Except String (String × String) :=
  match s.future with
  | none => .error "No translation in progress"
  | some .pending => .error "Translation timed out"
  | some (.ok v) => .ok v
  | some (.failed e) => .error ("Translation failed: " ++ e)

/-- `TranslationService.is_translation_done` (lines 117-119). -/
def is_translation_done (s : State) : Bool :=
  match s.future with
  | none => false
  | some .pending => false
  | some _ => true

/-- `TranslationService.shutdown` (lines 121-126): shut the executor down if it
exists — without resetting `self._executor` to `None` — and clear the cache.
`self._future` and `self._deep_translator` are also left untouched. -/
def shutdown (s : State) : State :=
  { s with executor := s.executor.map (fun _ => true), cache := [] }

/-- Run a sequence of `translate` calls, threading the service state. -/
def runCalls (google deep : String → Except String String) (s : State) :
    List String → State
  | [] => s
  | u :: us => runCalls google deep (translate google deep s u).2 us

/-- C5 (amended): `get_translation_result` raises `"No translation in progress"`
when no async translation was ever started, `"Translation timed out"` when the
pending computation is unresolved at the deadline, and — when the computation
itself failed — a new `TranslationError` that wraps the computation's message as
`"Translation failed: ..."` rather than re-raising the same error. -/
theorem get_translation_result_error_cases :
    (∀ (ex : Option Bool) (c : List (String × String × String)) (n : Nat),
      get_translation_result ⟨ex, none, c, n⟩ = .error "No translation in progress") ∧
    (∀ (ex : Option Bool) (c : List (String × String × String)) (n : Nat),
      get_translation_result ⟨ex, some .pending, c, n⟩ = .error "Translation timed out") ∧
    (∀ (ex : Option Bool) (c : List (String × String × String)) (n : Nat) (e : String),
      get_translation_result ⟨ex, some (.failed e), c, n⟩ =
        .error ("Translation failed: " ++ e)) ∧
    (∀ (ex : Option Bool) (c : List (String × String × String)) (n : Nat)
      (v : String × String),
      get_translation_result ⟨ex, some (.ok v), c, n⟩ = .ok v) :=
  ⟨fun _ _ _ => rfl, fun _ _ _ => rfl, fun _ _ _ _ => rfl, fun _ _ _ _ => rfl⟩

/-- C5 counterexample: a pending computation that failed with message `"boom"`
makes `get_translation_result` raise `"Translation failed: boom"`, which is not
the same error the computation raised. -/
theorem get_result_wraps_failure_counterexample :
    get_translation_result ⟨some false, some (.failed "boom"), [], 0⟩ =
      .error "Translation failed: boom" ∧
    (Except.error "Translation failed: boom" : Except String (String × String)) ≠
      .error "boom" := by
  refine ⟨rfl, fun h => ?_⟩
  have : "Translation failed: boom" = "boom" := by injection h
  exact absurd this (by decide)

/-- The keys of the cached entries, in recency order. -/
abbrev cacheKeys (c : List (String × String × String)) : List String := c.map (fun q => q.1)

/-- Invariant tracked across the calls between two `translate` calls on the same
text: the memoized entry `(t, v)` is present, every entry in front of it (more
recently used) has a key drawn from `K`, and those keys are distinct. -/
def MemoInv (K : Finset String) (t : String) (v : String × String)
    (c : List (String × String × String)) : Prop :=
  ∃ pre post, c = pre ++ (t, v) :: post ∧
    (cacheKeys pre).Nodup ∧ t ∉ cacheKeys pre ∧ ∀ k ∈ cacheKeys pre, k ∈ K

theorem translate_empty (google deep : String → Except String String) (s : State)
    (u : String) (h : pyStrip u = "") :
    translate google deep s u = (.ok ("", "none"), s) := by
  simp [translate, h]

theorem translate_hit (google deep : String → Except String String) (s : State)
    (u : String) (entry : String × String × String) (h : ¬ pyStrip u = "")
    (hfind : s.cache.find? (fun q => q.1 == pyStrip u) = some entry) :
    translate google deep s u =
      (.ok entry.2,
       { s with cache := (pyStrip u, entry.2) ::
           s.cache.filter (fun q => !(q.1 == pyStrip u)) }) := by
  simp [translate, h, hfind]

theorem translate_miss_ok (google deep : String → Except String String) (s : State)
    (u : String) (v : String × String) (h : ¬ pyStrip u = "")
    (hfind : s.cache.find? (fun q => q.1 == pyStrip u) = none)
    (hv : (translate_impl google deep (pyStrip u)).1 = .ok v) :
    translate google deep s u =
      (.ok v,
       { s with
          cache := ((pyStrip u, v) :: s.cache).take CACHE_SIZE,
          backendCalls :=
            s.backendCalls + (translate_impl google deep (pyStrip u)).2.length }) := by
  simp [translate, h, hfind, hv]

theorem translate_miss_error (google deep : String → Except String String) (s : State)
    (u : String) (e : String) (h : ¬ pyStrip u = "")
    (hfind : s.cache.find? (fun q => q.1 == pyStrip u) = none)
    (he : (translate_impl google deep (pyStrip u)).1 = .error e) :
    translate google deep s u =
      (.error e,
       { s with
          backendCalls :=
            s.backendCalls + (translate_impl google deep (pyStrip u)).2.length }) := by
  simp [translate, h, hfind, he]

theorem filter_decomp (pre post : List (String × String × String)) (t k : String)
    (v : String × String) (hne : t ≠ k) :
    (pre ++ (t, v) :: post).filter (fun q => !(q.1 == k)) =
      pre.filter (fun q => !(q.1 == k)) ++ (t, v) :: post.filter (fun q => !(q.1 == k)) := by
  rw [List.filter_append, List.filter_cons]
  simp [hne]

theorem toFinset_map_card_le (f : String → String) (l : List String) :
    ((l.map f).toFinset).card ≤ l.toFinset.card := by
  induction l with
  | nil => simp
  | cons a l ih =>
    simp only [List.map_cons, List.toFinset_cons]
    by_cases ha : a ∈ l.toFinset
    · have hfa : f a ∈ (l.map f).toFinset :=
        List.mem_toFinset.mpr (List.mem_map_of_mem f (List.mem_toFinset.mp ha))
      rw [Finset.insert_eq_self.mpr hfa, Finset.insert_eq_self.mpr ha]
      exact ih
    · rw [Finset.card_insert_of_not_mem ha]
      have h1 := Finset.card_insert_le (f a) (l.map f).toFinset
      omega

theorem keys_length_le_card (pre : List (String × String × String)) (K : Finset String)
    (hnodup : (cacheKeys pre).Nodup) (hsub : ∀ k ∈ cacheKeys pre, k ∈ K) :
    pre.length ≤ K.card := by
  have h1 : (cacheKeys pre).toFinset.card = (cacheKeys pre).length :=
    List.toFinset_card_of_nodup hnodup
  have h2 : (cacheKeys pre).toFinset ⊆ K := fun x hx => hsub x (List.mem_toFinset.mp hx)
  have h3 := Finset.card_le_card h2
  have h4 : (cacheKeys pre).length = pre.length := List.length_map _ _
  omega

theorem keys_filter_sublist (pre : List (String × String × String)) (k : String) :
    List.Sublist (cacheKeys (pre.filter (fun q => !(q.1 == k)))) (cacheKeys pre) :=
  List.Sublist.map _ (List.filter_sublist pre)

/-- One intervening `translate` call preserves the memo invariant, as long as at
most `CACHE_SIZE - 1` distinct stripped texts occur in the interval. -/
theorem memoInv_step (google deep : String → Except String String) (K : Finset String)
    (t : String) (v : String × String) (s : State) (u : String)
    (hK : K.card < CACHE_SIZE)
    (hu : pyStrip u = "" ∨ pyStrip u ∈ K)
    (hinv : MemoInv K t v s.cache) :
    MemoInv K t v (translate google deep s u).2.cache := by
  obtain ⟨pre, post, hc, hnodup, htpre, hsub⟩ := hinv
  by_cases hemp : pyStrip u = ""
  · rw [translate_empty google deep s u hemp]
    exact ⟨pre, post, hc, hnodup, htpre, hsub⟩
  have huK : pyStrip u ∈ K := hu.resolve_left hemp
  cases hfind : s.cache.find? (fun q => q.1 == pyStrip u) with
  | some entry =>
    rw [translate_hit google deep s u entry hemp hfind]
    by_cases hkt : pyStrip u = t
    · -- the intervening call is an alias of `t` itself: its entry moves to the front
      have hent : entry = (t, v) := by
        rw [hc, hkt, List.find?_append] at hfind
        have h1 : pre.find? (fun q => q.1 == t) = none := by
          rw [List.find?_eq_none]
          intro x hx
          simp only [beq_iff_eq]
          intro hxt
          exact htpre (hxt ▸ List.mem_map_of_mem _ hx)
        rw [h1, Option.none_or, List.find?_cons_of_pos _ (by simp)] at hfind
        exact (Option.some.injEq _ _).mp hfind.symm
      refine ⟨[], (pre ++ (t, v) :: post).filter (fun q => !(q.1 == pyStrip u)), ?_,
        by simp, by simp, by simp⟩
      simp only [hc, hent, hkt, List.nil_append]
    · -- an entry with a different key moves to the front of `t`
      refine ⟨(pyStrip u, entry.2) :: pre.filter (fun q => !(q.1 == pyStrip u)),
        post.filter (fun q => !(q.1 == pyStrip u)), ?_, ?_, ?_, ?_⟩
      · simp only [hc, filter_decomp pre post t (pyStrip u) v (fun h => hkt h.symm),
          List.cons_append]
      · refine List.Nodup.cons ?_ (hnodup.sublist (keys_filter_sublist pre (pyStrip u)))
        intro hmem
        obtain ⟨x, hx, hxk⟩ := List.mem_map.mp hmem
        have := (List.mem_filter.mp hx).2
        simp only [Bool.not_eq_eq_eq_not, Bool.not_true, beq_eq_false_iff_ne] at this
        exact this hxk
      · intro hmem
        rcases List.mem_cons.mp hmem with h | h
        · exact hkt h.symm
        · exact htpre ((keys_filter_sublist pre (pyStrip u)).subset h)
      · intro x hx
        rcases List.mem_cons.mp hx with h | h
        · exact h ▸ huK
        · exact hsub x ((keys_filter_sublist pre (pyStrip u)).subset h)
  | none =>
    -- a miss: the stripped key is not in the cache at all, so it differs from `t`
    have hkt : pyStrip u ≠ t := by
      intro hkt
      have := List.find?_eq_none.mp hfind (t, v) (by rw [hc]; simp)
      simp [hkt] at this
    cases himpl : (translate_impl google deep (pyStrip u)).1 with
    | error e =>
      rw [translate_miss_error google deep s u e hemp hfind himpl]
      exact ⟨pre, post, hc, hnodup, htpre, hsub⟩
    | ok v' =>
      rw [translate_miss_ok google deep s u v' hemp hfind himpl]
      have hkpre : pyStrip u ∉ cacheKeys pre := by
        intro hmem
        obtain ⟨x, hx, hxk⟩ := List.mem_map.mp hmem
        have := List.find?_eq_none.mp hfind x (by rw [hc]; exact List.mem_append_left _ hx)
        simp [hxk] at this
      have hnodup' : (cacheKeys ((pyStrip u, v') :: pre)).Nodup :=
        List.Nodup.cons hkpre hnodup
      have hsub' : ∀ k ∈ cacheKeys ((pyStrip u, v') :: pre), k ∈ K := by
        intro x hx
        rcases List.mem_cons.mp hx with h | h
        · exact h ▸ huK
        · exact hsub x h
      have hlen : ((pyStrip u, v') :: pre).length ≤ K.card :=
        keys_length_le_card _ K hnodup' hsub'
      have hlen' : ((pyStrip u, v') :: pre).length < CACHE_SIZE := lt_of_le_of_lt hlen hK
      refine ⟨(pyStrip u, v') :: pre, post.take (CACHE_SIZE - pre.length - 2), ?_,
        hnodup', ?_, hsub'⟩
      · rw [hc]
        have harr : ((pyStrip u, v') :: (pre ++ (t, v) :: post)) =
            ((pyStrip u, v') :: pre) ++ (t, v) :: post := by simp
        rw [harr, List.take_append_eq_append_take,
          List.take_of_length_le (le_of_lt hlen'),
          show CACHE_SIZE - ((pyStrip u, v') :: pre).length =
            (CACHE_SIZE - pre.length - 2) + 1 by
              simp only [List.length_cons] at hlen' ⊢
              omega,
          List.take_succ_cons]
      · intro hmem
        rcases List.mem_cons.mp hmem with h | h
        · exact hkt h.symm
        · exact htpre h

/-- The memo invariant is preserved across any sequence of intervening calls whose
stripped texts all come from `K`. -/
theorem memoInv_runCalls (google deep : String → Except String String) (K : Finset String)
    (t : String) (v : String × String) (s : State) (us : List String)
    (hK : K.card < CACHE_SIZE)
    (hus : ∀ u ∈ us, pyStrip u = "" ∨ pyStrip u ∈ K)
    (hinv : MemoInv K t v s.cache) :
    MemoInv K t v (runCalls google deep s us).cache := by
  induction us generalizing s with
  | nil => exact hinv
  | cons u us ih =>
    exact ih (translate google deep s u).2
      (fun x hx => hus x (List.mem_cons_of_mem _ hx))
      (memoInv_step google deep K t v s u hK (hus u (List.mem_cons_self _ _)) hinv)

/-- Reading `translate` on a text whose stripped form is memoized: the stored pair
comes back and no backend is invoked. -/
theorem translate_memoInv_hit (google deep : String → Except String String)
    (K : Finset String) (t : String) (v : String × String) (s : State) (T : String)
    (hstrip : pyStrip T = t) (ht : t ≠ "") (hinv : MemoInv K t v s.cache) :
    (translate google deep s T).1 = .ok v ∧
    (translate google deep s T).2.backendCalls = s.backendCalls := by
  obtain ⟨pre, post, hc, hnodup, htpre, _⟩ := hinv
  have hfind : s.cache.find? (fun q => q.1 == pyStrip T) = some (t, v) := by
    rw [hc, hstrip, List.find?_append]
    have h1 : pre.find? (fun q => q.1 == t) = none := by
      rw [List.find?_eq_none]
      intro x hx
      simp only [beq_iff_eq]
      intro hxt
      exact htpre (hxt ▸ List.mem_map_of_mem _ hx)
    rw [h1, Option.none_or, List.find?_cons_of_pos _ (by simp)]
  rw [translate_hit google deep s T (t, v) (by rw [hstrip]; exact ht) hfind]
  exact ⟨rfl, rfl⟩

/-- A successful `translate` leaves its stripped text memoized at the front. -/
theorem memoInv_after_first (google deep : String → Except String String)
    (K : Finset String) (s : State) (T : String) (v : String × String)
    (ht : ¬ pyStrip T = "")
    (hok : (translate google deep s T).1 = .ok v) :
    MemoInv K (pyStrip T) v (translate google deep s T).2.cache := by
  cases hfind : s.cache.find? (fun q => q.1 == pyStrip T) with
  | some entry =>
    rw [translate_hit google deep s T entry ht hfind] at hok ⊢
    have hv : entry.2 = v := by
      simpa using hok
    exact ⟨[], s.cache.filter (fun q => !(q.1 == pyStrip T)), by simp [hv], by simp,
      by simp, by simp⟩
  | none =>
    cases himpl : (translate_impl google deep (pyStrip T)).1 with
    | error e =>
      rw [translate_miss_error google deep s T e ht hfind himpl] at hok
      simp at hok
    | ok v' =>
      rw [translate_miss_ok google deep s T v' ht hfind himpl] at hok ⊢
      have hv : v' = v := by simpa using hok
      refine ⟨[], s.cache.take (CACHE_SIZE - 1), ?_, by simp, by simp, by simp⟩
      rw [hv, show CACHE_SIZE = (CACHE_SIZE - 1) + 1 from rfl, List.take_succ_cons]
      simp

/-- C3: a second `translate` of the same text, with fewer than `CACHE_SIZE`
distinct texts translated in between, returns the identical pair from the cache
without invoking any backend; a failed translation never changes the cache; and
the cache never exceeds `CACHE_SIZE` entries. -/
theorem translate_cache_memoization :
    (∀ (google deep : String → Except String String) (s : State) (T : String)
      (us : List String) (v : String × String),
      us.toFinset.card < CACHE_SIZE →
      (translate google deep s T).1 = .ok v →
      (translate google deep (runCalls google deep (translate google deep s T).2 us) T).1 =
        .ok v ∧
      (translate google deep
        (runCalls google deep (translate google deep s T).2 us) T).2.backendCalls =
        (runCalls google deep (translate google deep s T).2 us).backendCalls) ∧
    (∀ (google deep : String → Except String String) (s : State) (u e : String),
      (translate google deep s u).1 = .error e →
      (translate google deep s u).2.cache = s.cache) ∧
    (∀ (google deep : String → Except String String) (s : State) (u : String),
      s.cache.length ≤ CACHE_SIZE → (translate google deep s u).2.cache.length ≤ CACHE_SIZE) := by
  refine ⟨?_, ?_, ?_⟩
  · intro google deep s T us v hcard hok
    by_cases hemp : pyStrip T = ""
    · rw [translate_empty google deep s T hemp] at hok
      rw [translate_empty google deep _ T hemp]
      simp at hok
      simp [hok]
    · have hKcard : ((us.map pyStrip).toFinset).card < CACHE_SIZE := by
        have h1 := toFinset_map_card_le pyStrip us
        omega
      have hinv := memoInv_after_first google deep ((us.map pyStrip).toFinset)
        s T v hemp hok
      have hinv2 := memoInv_runCalls google deep ((us.map pyStrip).toFinset)
        (pyStrip T) v (translate google deep s T).2 us hKcard
        (fun u hu => Or.inr (List.mem_toFinset.mpr (List.mem_map_of_mem _ hu))) hinv
      exact translate_memoInv_hit google deep _ (pyStrip T) v _ T rfl hemp hinv2
  · intro google deep s u e herr
    by_cases hemp : pyStrip u = ""
    · rw [translate_empty google deep s u hemp] at herr
      simp at herr
    · cases hfind : s.cache.find? (fun q => q.1 == pyStrip u) with
      | some entry =>
        rw [translate_hit google deep s u entry hemp hfind] at herr
        simp at herr
      | none =>
        cases himpl : (translate_impl google deep (pyStrip u)).1 with
        | ok v' =>
          rw [translate_miss_ok google deep s u v' hemp hfind himpl] at herr
          simp at herr
        | error e' =>
          rw [translate_miss_error google deep s u e' hemp hfind himpl]
  · intro google deep s u hlen
    by_cases hemp : pyStrip u = ""
    · rw [translate_empty google deep s u hemp]
      exact hlen
    · cases hfind : s.cache.find? (fun q => q.1 == pyStrip u) with
      | some entry =>
        rw [translate_hit google deep s u entry hemp hfind]
        have hmem : entry ∈ s.cache := List.mem_of_find?_eq_some hfind
        have hpred : ¬ ((fun q => !(q.1 == pyStrip u)) entry = true) := by
          have := List.find?_some hfind
          simp at this ⊢
          exact this
        have hlt : (s.cache.filter (fun q => !(q.1 == pyStrip u))).length < s.cache.length :=
          List.length_filter_lt_length_iff_exists.mpr ⟨entry, hmem, hpred⟩
        simp only [List.length_cons]
        omega
      | none =>
        cases himpl : (translate_impl google deep (pyStrip u)).1 with
        | ok v' =>
          rw [translate_miss_ok google deep s u v' hemp hfind himpl]
          simp only [List.length_take]
          omega
        | error e' =>
          rw [translate_miss_error google deep s u e' hemp hfind himpl]
          exact hlen

/-- Witness for `translate_cache_memoization`: a concrete service translating
`"  hi  "` twice around one intervening call, with a counting check. -/
theorem translate_cache_memoization_witness :
    (["other"].toFinset.card < CACHE_SIZE) ∧
    ((translate (fun _ => .ok "tr") (fun _ => .ok "dt") State.init "  hi  ").1 =
      .ok ("tr", "googletrans")) ∧
    ((translate (fun _ => .ok "tr") (fun _ => .ok "dt")
      (runCalls (fun _ => .ok "tr") (fun _ => .ok "dt")
        (translate (fun _ => .ok "tr") (fun _ => .ok "dt") State.init "  hi  ").2
        ["other"]) "  hi  ").1 = .ok ("tr", "googletrans") ∧
      (translate (fun _ => .ok "tr") (fun _ => .ok "dt")
        (runCalls (fun _ => .ok "tr") (fun _ => .ok "dt")
          (translate (fun _ => .ok "tr") (fun _ => .ok "dt") State.init "  hi  ").2
          ["other"]) "  hi  ").2.backendCalls =
        (runCalls (fun _ => .ok "tr") (fun _ => .ok "dt")
          (translate (fun _ => .ok "tr") (fun _ => .ok "dt") State.init "  hi  ").2
          ["other"]).backendCalls) :=
  ⟨by decide, by rfl,
   (translate_cache_memoization.1 (fun _ => .ok "tr") (fun _ => .ok "dt") State.init
     "  hi  " ["other"] ("tr", "googletrans") (by decide) (by rfl))⟩

/-- C4 counterexample: from a fresh service, `translate_async` succeeds; but after
`shutdown()` the executor is left in place in its shut-down state, so the same
call raises `RuntimeError` instead of transparently re-initializing — the service
does not behave as if freshly constructed. -/
theorem translate_async_after_shutdown_fails :
    translate_async State.init .pending = .ok ⟨some false, some .pending, [], 0⟩ ∧
    shutdown ⟨some false, some .pending, [], 0⟩ = ⟨some true, some .pending, [], 0⟩ ∧
    translate_async ⟨some true, some .pending, [], 0⟩ .pending =
      .error "cannot schedule new futures after shutdown" :=
  ⟨rfl, rfl, rfl⟩

end TranslationService

namespace MeloTTSService

/-- `MeloTTSService.CLEANUP_INTERVAL_SECONDS` (melo_tts_service.py line 26). -/
def CLEANUP_INTERVAL_SECONDS : Nat := 3600

/-- `MeloTTSService.MAX_FILE_AGE_SECONDS` (melo_tts_service.py line 27). -/
def MAX_FILE_AGE_SECONDS : Int := 3600

/-- One entry of the voice mapping built by `_build_voice_mapping`
(lines 86-90): speaker name, human label, engine-internal speaker id. -/
structure VoiceProfile where
  name : String
  label : String
  speaker_id : Nat
  deriving DecidableEq, Repr

/-- The friendly-label table `labels` (lines 79-81). -/
def labels : List (String × String) := [("ZH", "Chinese Female")]

/-- Python `labels.get(speaker, speaker)` (line 85): the configured friendly
label, falling back to the raw speaker name. -/
def labelsGet (speaker : String) : String :=
  match labels.find? (fun p => p.1 == speaker) with
  | some p => p.2
  | none => speaker

/-- `MeloTTSService._build_voice_mapping` (lines 72-92): enumerate the engine's
speaker roster (`spk2id`, an association list of speaker name to internal id, in
the engine's reported order) from 1, producing choice keys `"1"`, `"2"`, ... . -/
def build_voice_mapping (roster : List (String × Nat)) : List (String × VoiceProfile) :=
  roster.enum.map (fun p => (toString (p.1 + 1), ⟨p.2.1, labelsGet p.2.1, p.2.2⟩))

/-- State of a `MeloTTSService` instance: `loaded` is `none` while
`self._model is None` and `some roster` once the engine is loaded, `roster`
being the engine's reported speaker roster (from which `_speaker_ids`,
`_speakers` and `_voices` are all derived at load time, lines 59-69);
`cleanupRunning` tracks whether the background sweep thread is running. -/
structure State where
  loaded : Option (List (String × Nat))
  cleanupRunning : Bool
  deriving DecidableEq, Repr

/-- A freshly constructed `MeloTTSService` with the default `auto_cleanup=True`
(`__init__`, lines 29-54): model unloaded, sweep thread started. -/
def State.init : State := ⟨none, true⟩

/-- `MeloTTSService.get_voices` (lines 94-99): trigger the lazy engine load if
needed (capturing the roster reported by the oracle `engineRoster`), then return
`_voices`. -/
def get_voices (engineRoster : List (String × Nat)) (m : State) :
    List (String × VoiceProfile) × State :=
  match m.loaded with
  | some roster => (build_voice_mapping roster, m)
  | none => (build_voice_mapping engineRoster, { m with loaded := some engineRoster })

/-- `MeloTTSService.shutdown` (lines 215-222): stop the sweep thread and reset
`_model`, `_speaker_ids`, `_speakers` and `_voices` to `None`. -/
def shutdown (_m : State) : State := ⟨none, false⟩

/-- C7: for an engine roster of `N` speakers, the voice mapping (returned by
`get_voices`) has exactly `N` entries; the `k`-th entry (0-based) has choice key
`toString (k+1)` — so the keys are `"1"` through `"N"` in roster order — and
carries the speaker's name, the friendly label with fallback to the raw name,
and the engine's internal speaker id. -/
theorem build_voice_mapping_roster (roster : List (String × Nat)) :
    (build_voice_mapping roster).length = roster.length ∧
    (∀ (k : Nat) (p : String × Nat), roster[k]? = some p →
      (build_voice_mapping roster)[k]? =
        some (toString (k + 1), ⟨p.1, labelsGet p.1, p.2⟩)) ∧
    (get_voices roster State.init).1 = build_voice_mapping roster := by
  refine ⟨?_, ?_, rfl⟩
  · simp [build_voice_mapping]
  · intro k p hp
    simp [build_voice_mapping, List.getElem?_map, List.getElem?_enum, hp]

/-- Witness for `build_voice_mapping_roster` on the actual single-speaker Chinese
roster (`{"ZH": 1}`) at index 0. -/
theorem build_voice_mapping_roster_witness :
    ([("ZH", 1)] : List (String × Nat))[0]? = some ("ZH", 1) ∧
    (build_voice_mapping [("ZH", 1)])[0]? =
      some (toString (0 + 1), ⟨"ZH", labelsGet "ZH", 1⟩) :=
  ⟨rfl, (build_voice_mapping_roster [("ZH", 1)]).2.1 0 ("ZH", 1) rfl⟩

/-- One entry of the output directory listing seen by the sweep: its file name,
its `st_mtime`, and whether the per-file `stat`/`unlink` attempt raises (the
error caught at lines 181-182). -/
structure FileEntry where
  name : String
  mtime : Int
  removeFails : Bool
  deriving DecidableEq, Repr

/-- `pathlib.Path.glob("*.wav")` (line 175): `*` matches any character sequence,
including the empty one, so this is exactly the names ending in `.wav` (hidden
names such as `.hidden.wav` included — pathlib's fnmatch-based glob does not skip
dot-files). -/
def matchesWavGlob (name : String) : Bool :=
  ".wav".data.isSuffixOf name.data

/-- The sweep removes a file exactly when it matches `*.wav`, its age
`now - st_mtime` exceeds `MAX_FILE_AGE_SECONDS`, and its deletion attempt does
not raise (lines 175-182). -/
def sweepRemoves (now : Int) (f : FileEntry) : Bool :=
  matchesWavGlob f.name && decide (MAX_FILE_AGE_SECONDS < now - f.mtime) && !f.removeFails

/-- `MeloTTSService._cleanup_old_files` (lines 165-187) as a function on the
directory listing: the files remaining after one sweep.  Each file's fate is
decided by `sweepRemoves` on that file alone; a failing deletion is caught
per-file and the loop continues with the rest. -/
def cleanup_old_files (now : Int) (files : List FileEntry) : List FileEntry :=
  files.filter (fun f => !(sweepRemoves now f))

/-- `MeloTTSService.cleanup_now` (lines 211-213): manually trigger one sweep. -/
def cleanup_now (now : Int) (files : List FileEntry) : List FileEntry :=
  cleanup_old_files now files

/-- C6: a `*.wav` file older than the retention window is removed by a sweep
(when its deletion attempt does not itself fail), a file within the window is
preserved, each file's fate depends on that file alone (so one file's deletion
error cannot abort the processing of the others), and `cleanup_now` performs
exactly the same sweep. -/
theorem cleanup_old_files_retention (now : Int) (files : List FileEntry)
    (f : FileEntry) (hmem : f ∈ files) (hwav : matchesWavGlob f.name = true) :
    (MAX_FILE_AGE_SECONDS < now - f.mtime → f.removeFails = false →
      f ∉ cleanup_old_files now files) ∧
    (now - f.mtime ≤ MAX_FILE_AGE_SECONDS → f ∈ cleanup_old_files now files) ∧
    (∀ g : FileEntry, g ∈ cleanup_old_files now files ↔
      g ∈ files ∧ sweepRemoves now g = false) ∧
    cleanup_now now files = cleanup_old_files now files := by
  refine ⟨?_, ?_, ?_, rfl⟩
  · intro hage hfail hin
    have h := (List.mem_filter.mp hin).2
    simp [sweepRemoves, hwav, hage, hfail] at h
  · intro hage
    refine List.mem_filter.mpr ⟨hmem, ?_⟩
    have hdec : decide (MAX_FILE_AGE_SECONDS < now - f.mtime) = false :=
      decide_eq_false (by omega)
    simp [sweepRemoves, hdec]
  · intro g
    constructor
    · intro hin
      have h := List.mem_filter.mp hin
      refine ⟨h.1, ?_⟩
      simpa using h.2
    · intro h
      exact List.mem_filter.mpr ⟨h.1, by simp [h.2]⟩

/-- Witness for `cleanup_old_files_retention`: a two-file listing where the old
`.wav` is removed and the fresh one kept. -/
theorem cleanup_old_files_retention_witness :
    ((⟨"a.wav", 0, false⟩ : FileEntry) ∈
      [(⟨"a.wav", 0, false⟩ : FileEntry), ⟨"b.wav", 9000, false⟩]) ∧
    matchesWavGlob "a.wav" = true ∧
    (MAX_FILE_AGE_SECONDS < (10000 : Int) - 0 → (false : Bool) = false →
      (⟨"a.wav", 0, false⟩ : FileEntry) ∉
        cleanup_old_files 10000 [⟨"a.wav", 0, false⟩, ⟨"b.wav", 9000, false⟩]) :=
  ⟨by decide, by decide,
   (cleanup_old_files_retention 10000 [⟨"a.wav", 0, false⟩, ⟨"b.wav", 9000, false⟩]
     ⟨"a.wav", 0, false⟩ (by decide) (by decide)).1⟩

/-- C9: a file whose name does not match `*.wav` is preserved by every sweep and
by `cleanup_now`, no matter its age. -/
theorem cleanup_preserves_non_wav (now : Int) (files : List FileEntry)
    (f : FileEntry) (hmem : f ∈ files) (hnot : matchesWavGlob f.name = false) :
    f ∈ cleanup_old_files now files ∧ f ∈ cleanup_now now files := by
  have h : f ∈ cleanup_old_files now files :=
    List.mem_filter.mpr ⟨hmem, by simp [sweepRemoves, hnot]⟩
  exact ⟨h, h⟩

/-- Witness for `cleanup_preserves_non_wav`: an ancient `notes.txt` survives. -/
theorem cleanup_preserves_non_wav_witness :
    ((⟨"notes.txt", 0, false⟩ : FileEntry) ∈ [(⟨"notes.txt", 0, false⟩ : FileEntry)]) ∧
    matchesWavGlob "notes.txt" = false ∧
    (⟨"notes.txt", 0, false⟩ : FileEntry) ∈
      cleanup_old_files 1000000 [⟨"notes.txt", 0, false⟩] :=
  ⟨by decide, by decide,
   (cleanup_preserves_non_wav 1000000 [⟨"notes.txt", 0, false⟩] ⟨"notes.txt", 0, false⟩
     (by decide) (by decide)).1⟩

/-- A clock reading captured by `datetime.now()` (line 144). -/
structure Timestamp where
  year : Nat
  month : Nat
  day : Nat
  hour : Nat
  minute : Nat
  second : Nat
  microsecond : Nat
  deriving DecidableEq, Repr

/-- The field ranges Python's `datetime` guarantees for any `now()` value. -/
def Timestamp.Valid (t : Timestamp) : Prop :=
  1 ≤ t.year ∧ t.year ≤ 9999 ∧ 1 ≤ t.month ∧ t.month ≤ 12 ∧ 1 ≤ t.day ∧ t.day ≤ 31 ∧
    t.hour ≤ 23 ∧ t.minute ≤ 59 ∧ t.second ≤ 59 ∧ t.microsecond ≤ 999999

instance (t : Timestamp) : Decidable t.Valid := by
  unfold Timestamp.Valid
  infer_instance

/-- The big-endian digits of `n`, zero-padded to exactly `width` places — the
digit sequence `strftime` prints for an in-range zero-padded numeric field. -/
def padDigits (width n : Nat) : List Nat :=
  (List.range width).map (fun i => n / 10 ^ (width - 1 - i) % 10)

/-- The characters of a zero-padded `strftime` numeric field. -/
def padChars (width n : Nat) : List Char :=
  (padDigits width n).map Nat.digitChar

/-- The characters of the artifact file name built at lines 144-145:
`f"melo_tts_{now.strftime('%Y%m%d_%H%M%S_%f')}.wav"`. -/
def filenameChars (t : Timestamp) : List Char :=
  "melo_tts_".data ++ padChars 4 t.year ++ padChars 2 t.month ++ padChars 2 t.day ++
    ['_'] ++ padChars 2 t.hour ++ padChars 2 t.minute ++ padChars 2 t.second ++
    ['_'] ++ padChars 6 t.microsecond ++ ".wav".data

/-- The artifact file name as a string. -/
def filename (t : Timestamp) : String := String.mk (filenameChars t)

/-- `TTSError` and the uncaught Python `IndexError` that `self._speakers[0]`
would raise on an empty roster. -/
inductive TTSErr where
  | emptyText
  | indexError
  | synthesisFailed (cause : String)
  deriving DecidableEq, Repr

/-- The request a `generate_speech` call passes to `model.tts_to_file`
(lines 150-156). -/
structure SynthCall where
  text : String
  speaker_id : Nat
  output_path : String
  speed : ℚ
  deriving DecidableEq, Repr

/-- The `tts_to_file` request `MeloTTSService.generate_speech` (lines 123-159)
issues: blank text raises `TTSError("Text cannot be empty")`; the speaker id is
`self._speaker_ids[self._speakers[0]]`, i.e. the id of the first speaker in the
engine's reported roster order; the output path joins the output directory with
the timestamp-derived file name; the speed is forwarded unchanged (Python's
`float` speed is modelled exactly, since `generate_speech` only passes it on). -/
def synth_request (roster : List (String × Nat)) (output_dir text : String) (speed : ℚ)
    (ts : Timestamp) : Except TTSErr SynthCall :=
  if pyStrip text = "" then .error .emptyText
  else
    match roster with
    | [] => .error .indexError
    | (_, sid) :: _ => .ok ⟨text, sid, output_dir ++ "/" ++ filename ts, speed⟩

/-- `MeloTTSService.generate_speech` (lines 123-159): build the request, run the
engine (oracle `engine`), wrap an engine failure as
`TTSError("Failed to generate speech: ...")`, and return the file path. -/
def generate_speech (engine : SynthCall → Except String Unit)
    (roster : List (String × Nat)) (output_dir text : String) (speed : ℚ)
    (ts : Timestamp) : Except TTSErr String :=
  match synth_request roster output_dir text speed ts with
  | .error e => .error e
  | .ok call =>
    match engine call with
    | .ok _ => .ok call.output_path
    | .error e => .error (.synthesisFailed ("Failed to generate speech: " ++ e))

/-- C10: for every non-blank text and every speed, the synthesis request uses the
speaker id of the first speaker in the engine's reported roster order — no voice
mapping or voice-choice accessor is consulted — and forwards the speed value
unchanged; `generate_speech` then hands exactly this request to the engine. -/
theorem generate_speech_first_speaker_speed
    (rest : List (String × Nat)) (nm : String) (sid : Nat)
    (output_dir text : String) (speed : ℚ) (ts : Timestamp)
    (hne : ¬ pyStrip text = "") :
    synth_request ((nm, sid) :: rest) output_dir text speed ts =
      .ok ⟨text, sid, output_dir ++ "/" ++ filename ts, speed⟩ ∧
    (∀ engine : SynthCall → Except String Unit,
      engine ⟨text, sid, output_dir ++ "/" ++ filename ts, speed⟩ = .ok () →
      generate_speech engine ((nm, sid) :: rest) output_dir text speed ts =
        .ok (output_dir ++ "/" ++ filename ts)) := by
  have hreq : synth_request ((nm, sid) :: rest) output_dir text speed ts =
      .ok ⟨text, sid, output_dir ++ "/" ++ filename ts, speed⟩ := by
    simp [synth_request, hne]
  refine ⟨hreq, fun engine heng => ?_⟩
  simp [generate_speech, hreq, heng]

/-- Witness for `generate_speech_first_speaker_speed` on the actual Chinese
roster with text `"nihao"` at speed `1`. -/
theorem generate_speech_first_speaker_speed_witness :
    (¬ pyStrip "nihao" = "") ∧
    synth_request [("ZH", 1)] "output" "nihao" 1 ⟨2026, 10, 12, 0, 0, 0, 0⟩ =
      .ok ⟨"nihao", 1, "output" ++ "/" ++ filename ⟨2026, 10, 12, 0, 0, 0, 0⟩, 1⟩ :=
  ⟨by decide,
   (generate_speech_first_speaker_speed [] "ZH" 1 "output" "nihao" 1
     ⟨2026, 10, 12, 0, 0, 0, 0⟩ (by decide)).1⟩

/-- C8 counterexample: two distinct requests (different texts) whose
`datetime.now()` readings fall in the same microsecond are assigned the same
artifact name — the naming function depends on the timestamp alone, so it is not
injective across requests. -/
theorem filename_collision_same_timestamp :
    synth_request [("ZH", 1)] "output" "first request" 1 ⟨2026, 1, 2, 3, 4, 5, 6⟩ =
      .ok ⟨"first request", 1, "output/melo_tts_20260102_030405_000006.wav", 1⟩ ∧
    synth_request [("ZH", 1)] "output" "second request" 1 ⟨2026, 1, 2, 3, 4, 5, 6⟩ =
      .ok ⟨"second request", 1, "output/melo_tts_20260102_030405_000006.wav", 1⟩ ∧
    "first request" ≠ "second request" := by
  refine ⟨by rfl, by rfl, by decide⟩

theorem padDigits_length (width n : Nat) : (padDigits width n).length = width := by
  simp [padDigits]

theorem padChars_length (width n : Nat) : (padChars width n).length = width := by
  simp [padChars, padDigits_length]

theorem padDigits_succ (width n : Nat) :
    padDigits (width + 1) n = padDigits width (n / 10) ++ [n % 10] := by
  unfold padDigits
  rw [List.range_succ, List.map_append]
  congr 1
  · apply List.map_congr_left
    intro i hi
    have hi' : i < width := List.mem_range.mp hi
    have h1 : width + 1 - 1 - i = (width - 1 - i) + 1 := by omega
    rw [h1, pow_succ, Nat.mul_comm, ← Nat.div_div_eq_div_mul]
  · simp

/-- Recombine a big-endian digit list into the number it denotes. -/
def undigits (l : List Nat) : Nat := l.foldl (fun a d => 10 * a + d) 0

theorem undigits_padDigits (width n : Nat) (h : n < 10 ^ width) :
    undigits (padDigits width n) = n := by
  induction width generalizing n with
  | zero =>
    have hn : n = 0 := by simpa using h
    simp [padDigits, undigits, hn]
  | succ w ih =>
    rw [padDigits_succ]
    have hfold : undigits (padDigits w (n / 10) ++ [n % 10]) =
        10 * undigits (padDigits w (n / 10)) + n % 10 := by
      simp [undigits, List.foldl_append]
    rw [hfold, ih (n / 10) ((Nat.div_lt_iff_lt_mul (by norm_num)).mpr
      (by rw [← pow_succ]; exact h))]
    omega

theorem padDigits_lt (width n : Nat) : ∀ d ∈ padDigits width n, d < 10 := by
  intro d hd
  obtain ⟨i, _, hdi⟩ := List.mem_map.mp hd
  exact hdi ▸ Nat.mod_lt _ (by norm_num)

theorem digitChar_readback : ∀ d < 10, (Nat.digitChar d).toNat - 48 = d := by decide

/-- Read a zero-padded decimal field back from its characters. -/
def readNat (cs : List Char) : Nat := undigits (cs.map (fun c => c.toNat - 48))

theorem readNat_padChars (width n : Nat) (h : n < 10 ^ width) :
    readNat (padChars width n) = n := by
  unfold readNat padChars
  rw [List.map_map]
  have hmap : (padDigits width n).map ((fun c => c.toNat - 48) ∘ Nat.digitChar) =
      padDigits width n := by
    conv_rhs => rw [← List.map_id (padDigits width n)]
    apply List.map_congr_left
    intro d hd
    simpa using digitChar_readback d (padDigits_lt width n d hd)
  rw [hmap]
  exact undigits_padDigits width n h

theorem padChars_inj (width a b : Nat) (ha : a < 10 ^ width) (hb : b < 10 ^ width)
    (h : padChars width a = padChars width b) : a = b := by
  have h2 := congrArg readNat h
  rwa [readNat_padChars width a ha, readNat_padChars width b hb] at h2

theorem pad_peel (width a b : Nat) (r₁ r₂ : List Char)
    (ha : a < 10 ^ width) (hb : b < 10 ^ width)
    (h : padChars width a ++ r₁ = padChars width b ++ r₂) : a = b ∧ r₁ = r₂ := by
  have hlen : (padChars width a).length = (padChars width b).length := by
    rw [padChars_length, padChars_length]
  obtain ⟨h1, h2⟩ := List.append_inj h hlen
  exact ⟨padChars_inj width a b ha hb h1, h2⟩

/-- C8 (amended): the artifact name is uniquely determined by — and injective
in — the microsecond-resolution `datetime.now()` reading: two `generate_speech`
calls observing distinct timestamps get distinct artifact names (collisions are
possible only for calls that fall in the same microsecond, as
`filename_collision_same_timestamp` shows). -/
theorem filename_injective_on_timestamps (t₁ t₂ : Timestamp)
    (hv₁ : t₁.Valid) (hv₂ : t₂.Valid) (h : filename t₁ = filename t₂) : t₁ = t₂ := by
  obtain ⟨y₁, mo₁, d₁, hr₁, mi₁, s₁, us₁⟩ := t₁
  obtain ⟨y₂, mo₂, d₂, hr₂, mi₂, s₂, us₂⟩ := t₂
  obtain ⟨-, hy₁, -, hmo₁, -, hd₁, hh₁, hmi₁, hs₁, hus₁⟩ := hv₁
  obtain ⟨-, hy₂, -, hmo₂, -, hd₂, hh₂, hmi₂, hs₂, hus₂⟩ := hv₂
  simp only at hy₁ hmo₁ hd₁ hh₁ hmi₁ hs₁ hus₁ hy₂ hmo₂ hd₂ hh₂ hmi₂ hs₂ hus₂
  have hc : filenameChars ⟨y₁, mo₁, d₁, hr₁, mi₁, s₁, us₁⟩ =
      filenameChars ⟨y₂, mo₂, d₂, hr₂, mi₂, s₂, us₂⟩ := congrArg String.data h
  simp only [filenameChars, List.append_assoc, List.singleton_append] at hc
  have hp4 : (10:Nat) ^ 4 = 10000 := by norm_num
  have hp2 : (10:Nat) ^ 2 = 100 := by norm_num
  have hp6 : (10:Nat) ^ 6 = 1000000 := by norm_num
  have hc1 := List.append_cancel_left hc
  obtain ⟨ey, hc2⟩ := pad_peel 4 y₁ y₂ _ _ (by omega) (by omega) hc1
  obtain ⟨emo, hc3⟩ := pad_peel 2 mo₁ mo₂ _ _ (by omega) (by omega) hc2
  obtain ⟨ed, hc4⟩ := pad_peel 2 d₁ d₂ _ _ (by omega) (by omega) hc3
  have hc5 : padChars 2 hr₁ ++ (padChars 2 mi₁ ++ (padChars 2 s₁ ++
      ('_' :: (padChars 6 us₁ ++ ".wav".data)))) =
      padChars 2 hr₂ ++ (padChars 2 mi₂ ++ (padChars 2 s₂ ++
      ('_' :: (padChars 6 us₂ ++ ".wav".data)))) := by
    injection hc4
  obtain ⟨eh, hc6⟩ := pad_peel 2 hr₁ hr₂ _ _ (by omega) (by omega) hc5
  obtain ⟨emi, hc7⟩ := pad_peel 2 mi₁ mi₂ _ _ (by omega) (by omega) hc6
  obtain ⟨es, hc8⟩ := pad_peel 2 s₁ s₂ _ _ (by omega) (by omega) hc7
  have hc9 : padChars 6 us₁ ++ ".wav".data = padChars 6 us₂ ++ ".wav".data := by
    injection hc8
  obtain ⟨eus, -⟩ := pad_peel 6 us₁ us₂ _ _ (by omega) (by omega) hc9
  subst ey emo ed eh emi es eus
  rfl

/-- Witness for `filename_injective_on_timestamps` at a concrete valid
timestamp. -/
theorem filename_injective_on_timestamps_witness :
    (Timestamp.mk 2026 10 12 1 2 3 4).Valid ∧
    (Timestamp.mk 2026 10 12 1 2 3 4) = Timestamp.mk 2026 10 12 1 2 3 4 :=
  ⟨by decide,
   filename_injective_on_timestamps (Timestamp.mk 2026 10 12 1 2 3 4)
     (Timestamp.mk 2026 10 12 1 2 3 4) (by decide) (by decide) rfl⟩

end MeloTTSService

namespace TranslationService

/-- C4 (amended): `shutdown()` is idempotent and safe before first use on both
components; after `shutdown()`, `MeloTTSService` operations transparently
re-trigger the lazy engine load and a synchronous
`TranslationService.translate` behaves as on a fresh instance; but
`TranslationService.shutdown` leaves the shut-down executor and the stale future
in place, so `translate_async` after `shutdown()` raises instead of
re-initializing (see `translate_async_after_shutdown_fails`). -/
theorem shutdown_idempotent_and_lazy_reinit :
    (∀ s : State, shutdown (shutdown s) = shutdown s) ∧
    shutdown State.init = State.init ∧
    (∀ m : MeloTTSService.State,
      MeloTTSService.shutdown (MeloTTSService.shutdown m) = MeloTTSService.shutdown m) ∧
    (∀ (roster : List (String × Nat)) (m : MeloTTSService.State),
      (MeloTTSService.get_voices roster (MeloTTSService.shutdown m)).1 =
        (MeloTTSService.get_voices roster MeloTTSService.State.init).1) ∧
    (∀ (google deep : String → Except String String) (s : State) (u : String),
      (translate google deep (shutdown s) u).1 = (translate google deep State.init u).1) := by
  refine ⟨?_, rfl, fun _ => rfl, fun _ _ => rfl, ?_⟩
  · intro s
    obtain ⟨ex, fut, c, n⟩ := s
    cases ex <;> simp [shutdown]
  · intro google deep s u
    by_cases hemp : pyStrip u = ""
    · rw [translate_empty google deep (shutdown s) u hemp,
        translate_empty google deep State.init u hemp]
    · cases himpl : (translate_impl google deep (pyStrip u)).1 with
      | ok v =>
        rw [translate_miss_ok google deep (shutdown s) u v hemp rfl himpl,
          translate_miss_ok google deep State.init u v hemp rfl himpl]
      | error e =>
        rw [translate_miss_error google deep (shutdown s) u e hemp rfl himpl,
          translate_miss_error google deep State.init u e hemp rfl himpl]

end TranslationService
